import Mathlib

/-!
Artifact acquisition, checksum verification and invocation in `cli_frontend.cpp`.

A shallow embedding of `src/experimental/src/cli_frontend.cpp`.

* `std::string` is `String`, one `Char` per `char`.  A C function given
  `s.c_str()` reads the characters before the first NUL (`c_str`).
* Library calls that can throw return `Option`, with `none` standing for an
  exception: `std::out_of_range` for `substr` and `erase`,
  `fs::filesystem_error` for `fs::current_path`, `fs::exists` and
  `fs::create_directories`.  The program has no `try`, so an exception ends the
  run; the result of a function is then `none`.
* `size_t` is a natural number below `2 ^ 64`, the three archives being built
  for 64-bit targets; `npos + 1` wraps to `0`.
* The outside world (file system, shell, pipe, standard input) is an `Env` of
  answers; every function returns its result together with the chronological
  list of `Event`s it performed.
* The conditional compilation on `__APPLE__`, `__linux__`, `_WIN32` is a
  `Macros` value.  The translation unit is well-formed only when one of the
  three branches of lines 62-67 declares `current_platform`; the functions
  that contain `#if` blocks are defined on such a `Build`.
-/

namespace CliFrontend

/-! ## The outside world -/

/-- One observable action of the program, in the order performed. -/
inductive Event where
  | cout (text : String)
  | cerr (text : String)
  | fs_current_path
  | fs_exists (path : String)
  | fs_create_directories (path : String)
  | system (command : String)
  | popen (command : String)
  | getline (line : String)
  deriving DecidableEq, Repr

/-- Number of values of `size_t`. -/
def size_t_range : Nat := 2 ^ 64

/-- The answers of the outside world during one run.  Every path is queried
and every command string is passed to the shell at most once per run, so one
answer per path and per command is fully general. -/
structure Env where
  /-- Result of `fs::current_path()`; `none` when it throws. -/
  current_path : Option String
  /-- Result of `fs::exists(path)`; `none` when it throws. -/
  fs_exists : String → Option Bool
  /-- Result of `fs::create_directories(path)`; `none` when it throws, for
  instance because a component of `path` is a regular file. -/
  fs_create_directories : String → Option Bool
  /-- Exit status returned by `system(command)`. -/
  system : String → Int
  /-- Result of `popen(command, "r")`: `none` when the pipe cannot be opened,
  otherwise everything the command writes to its standard output. -/
  popen : String → Option String
  /-- Contents, read as a C string, of the uninitialised array `buffer` when
  `fgets` stores nothing in it (the command printed nothing). -/
  buffer_uninit : String
  /-- The characters available on standard input. -/
  stdin : String
  /-- The size of a `std::string` is a `size_t`. -/
  buffer_uninit_size : buffer_uninit.length < size_t_range

/-- Which of the predefined platform macros the translation unit is compiled
with. -/
structure Macros where
  /-- `__APPLE__` is defined. -/
  __APPLE__ : Bool
  /-- `__linux__` is defined and non-zero. -/
  __linux__ : Bool
  /-- `_WIN32` is defined and non-zero. -/
  _WIN32 : Bool
  deriving DecidableEq, Repr

/-! ## Library functions used by the program -/

/-- `std::string::npos`. -/
def npos : Nat := size_t_range - 1

/-- The text a C function reads from `s.c_str()`: the characters before the
first NUL. -/
def c_str (s : String) : String :=
  ⟨s.data.takeWhile (fun c => c ≠ '\x00')⟩

/-- The characters `fgets` stores for a stream, with room for `n` of them:
it stops after a newline, at the end of the stream, or when the room is used. -/
def fgets_chars : Nat → List Char → List Char
  | 0, _ => []
  | _ + 1, [] => []
  | n + 1, c :: cs => if c = '\n' then [c] else c :: fgets_chars n cs

/-- `fgets(buffer, size, stream)`: `none` when end of file is met before any
character is read (the buffer is left untouched), otherwise the characters
stored before the terminating NUL. -/
def fgets (size : Nat) (stream : String) : Option String :=
  if stream.data = [] then none else some ⟨fgets_chars (size - 1) stream.data⟩

/-- `std::string(const char*)`: the characters before the first NUL. -/
def c_str_to_string (buffer : String) : String :=
  ⟨buffer.data.takeWhile (fun c => c ≠ '\x00')⟩

/-- Index of the last element not in `chars`, scanning a list whose first
element has index `i`; `none` when there is no such element. -/
def last_not_of (chars : List Char) : Nat → List Char → Option Nat
  | _, [] => none
  | i, c :: cs =>
    match last_not_of chars (i + 1) cs with
    | some j => some j
    | none => if c ∈ chars then none else some i

/-- `s.find_last_not_of(chars)`. -/
def find_last_not_of (s : String) (chars : String) : Nat :=
  match last_not_of chars.data 0 s.data with
  | some j => j
  | none => npos

/-- `s.erase(pos)`: removes everything from `pos` on; throws when
`pos > s.size()`. -/
def erase (s : String) (pos : Nat) : Option String :=
  if pos ≤ s.length then some ⟨s.data.take pos⟩ else none

/-- `s.substr(pos)`: throws when `pos > s.size()`. -/
def substr (s : String) (pos : Nat) : Option String :=
  if pos ≤ s.length then some ⟨s.data.drop pos⟩ else none

/-- `std::getline(std::cin, line)`: the characters before the first newline,
and the rest of the input after that newline. -/
def getline (input : String) : String × String :=
  let line := input.data.takeWhile (fun c => c ≠ '\n')
  (⟨line⟩, ⟨(input.data.drop line.length).drop 1⟩)

/-- `operator<<` for `fs::path`: the path in double quotes, with `"` and `\`
escaped by a backslash. -/
def quoted (s : String) : String :=
  ⟨'"' :: (s.data.flatMap (fun c => if c = '"' ∨ c = '\\' then ['\\', c] else [c])) ++ ['"']⟩

/-! ## The program -/

/-- Lines 5-17.  Line 9 passes `command.c_str()` to `system`. -/
def download_model (env : Env) (model_path : String) : Bool × List Event :=
  let command := "curl -L -o " ++ model_path ++ " https://huggingface.co/runwayml/stable-diffusion-v1-5/resolve/main/v1-5-pruned-emaonly.safetensors"
  let result := env.system (c_str command)
  if result = 0 then
    (true, [.system (c_str command),
      .cout ("Model downloaded successfully to: " ++ model_path ++ "\n")])
  else
    (false, [.system (c_str command), .cerr "Failed to download model.\n"])

/-- Line 31: `actual_sha256.erase(actual_sha256.find_last_not_of(" \n\r\t")+1)`,
the addition being made in `size_t`. -/
def trim (actual_sha256 : String) : Option String :=
  erase actual_sha256 ((find_last_not_of actual_sha256 " \n\r\t" + 1) % size_t_range)

/-- Lines 31-39 without the messages: the comparison made on the string
`actual_sha256` built at line 30.  `none` is an uncaught `std::out_of_range`. -/
def checksum_matches (actual_sha256 : String) (expected_sha256 : String) : Option Bool :=
  match trim actual_sha256 with
  | none => none
  | some actual_sha256 =>
    match substr expected_sha256 7 with
    | none => none
    | some expected => some (decide (actual_sha256 = expected))

/-- Lines 27-30: the string `actual_sha256` built from `buffer` once `fgets`
has read the output of the pipe. -/
def read_actual_sha256 (env : Env) (output : String) : String :=
  match fgets 65 output with
  | some line => c_str_to_string line
  | none => c_str_to_string env.buffer_uninit

/-- Lines 19-40.  Line 22 passes `command.c_str()` to `popen`. -/
def verify_download (env : Env) (file_path : String) (expected_sha256 : String) :
    Option Bool × List Event :=
  let command := "shasum -a 256 " ++ file_path ++ " | awk \x27\x7bprint $1\x7d\x27"
  match env.popen (c_str command) with
  | none => (some false, [.popen (c_str command),
      .cerr "Failed to open pipe for checksum verification.\n"])
  | some output =>
    match checksum_matches (read_actual_sha256 env output) expected_sha256 with
    | none => (none, [.popen (c_str command)])
    | some true => (some true, [.popen (c_str command), .cout "Checksum verification passed.\n"])
    | some false => (some false, [.popen (c_str command), .cerr "Checksum verification failed!\n"])

/-- Lines 44-47. -/
structure platformInfo where
  url : String
  sha256 : String
  deriving DecidableEq, Repr

/-- Lines 49-51. -/
def macOS : platformInfo :=
  { url := "https://github.com/leejet/stable-diffusion.cpp/releases/download/master-343-dd75fc0/sd-master--bin-Darwin-macOS-15.7.1-arm64.zip"
    sha256 := "sha256:49bb1c0273efb6a36a26926ece674daffe49cd4a51c9e8935b5c9e8eb68b7ea2" }

/-- Lines 53-55. -/
def linux : platformInfo :=
  { url := "https://github.com/leejet/stable-diffusion.cpp/releases/download/master-343-dd75fc0/sd-master--bin-Linux-Ubuntu-24.04-x86_64.zip"
    sha256 := "sha256:152df5843e2ea265a627024de37a985cf75b5554554e2ad5d0ff06aad76ba4d8" }

/-- Lines 57-59. -/
def windows : platformInfo :=
  { url := "https://github.com/leejet/stable-diffusion.cpp/releases/download/master-343-dd75fc0/sd-master-dd75fc0-bin-win-avx-x64.zip"
    sha256 := "sha256:17f6d4f4e1cdaf92f90ff09479e0460246193d015f2b29f8f7553affed426c78" }

/-- Lines 62-71: the variable `current_platform` that the chain
`#ifdef __APPLE__ / #elif __linux__ / #elif _WIN32 / #else` declares; `none`
is the `#else` branch, which declares no variable. -/
def current_platform (m : Macros) : Option platformInfo :=
  if m.__APPLE__ then some macOS
  else if m.__linux__ then some linux
  else if m._WIN32 then some windows
  else none

/-- A set of macros for which the translation unit is well-formed.  Line 72
and the lines after it are outside the `#if` chain and use `current_platform`,
which the `#else` branch does not declare: with none of the three macros the
file does not compile and there is no program to run. -/
structure Build where
  macros : Macros
  declared : (current_platform macros).isSome = true

/-- The variable `current_platform` of a build. -/
def Build.current_platform (b : Build) : platformInfo :=
  (CliFrontend.current_platform b.macros).get b.declared

/-- Lines 87-92: the `#ifdef _WIN32 / #else` choice of extraction command. -/
def unzip_command (m : Macros) : String :=
  if m._WIN32 then "tar -xf ./supplementary/stable_diffusion.zip -C .\\supplementary\\"
  else "unzip ./supplementary/stable_diffusion.zip -d ./supplementary/"

/-- Lines 42-105, for a build in which they compile.  The result `none` is an
exception: `fs::create_directories` of line 75 throwing, or an exception
leaving `verify_download`.  Lines 79 and 93 pass `c_str()` to `system`. -/
def download_stable_diffusion (env : Env) (b : Build) : Option Bool × List Event :=
  let current_platform := b.current_platform
  let start : List Event :=
    [.cout ("Downloading stable diffusion from: " ++ current_platform.url ++ "\n"),
     .fs_create_directories "./supplementary"]
  match env.fs_create_directories "./supplementary" with
  | none => (none, start)
  | some _ =>
    let command := "curl -L -o ./supplementary/stable_diffusion.zip " ++ current_platform.url
    let result := env.system (c_str command)
    if result = 0 then
      let verified :=
        verify_download env "./supplementary/stable_diffusion.zip" current_platform.sha256
      let checked : List Event :=
        start ++ [.system (c_str command), .cout "Stable diffusion downloaded successfully.\n"]
          ++ verified.2
      match verified.1 with
      | none => (none, checked)
      | some false =>
        (some false, checked ++ [.cerr "Downloaded file verification failed. Exiting.\n"])
      | some true =>
        let unzip_command := unzip_command b.macros
        let result := env.system (c_str unzip_command)
        if result = 0 then
          (some true, checked ++ [.system (c_str unzip_command),
            .cout "Stable diffusion unzipped successfully.\n"])
        else
          (some false, checked ++ [.system (c_str unzip_command),
            .cerr "Failed to unzip stable diffusion.\n"])
    else
      (some false, start ++ [.system (c_str command),
        .cerr "Failed to download stable diffusion.\n"])

/-- Line 112. -/
def model_path : String := "./models/v1-5-pruned-emaonly.safetensors"

/-- Line 152. -/
def rpath_command : String := "install_name_tool -add_rpath @loader_path ./supplementary/sd"

/-- Line 156. -/
def sd_command (model_path prompt output_filename : String) : String :=
  "./supplementary/sd -m " ++ model_path ++ " -p \"" ++ prompt ++ "\"" ++ " -o " ++ output_filename

/-- Lines 112-127 of `main`: the model step.  The result `some false` is the
`return 1` of line 125, `none` an exception thrown by `fs::exists` (line 114)
or `fs::create_directories` (line 120). -/
def main_model_step (env : Env) : Option Bool × List Event :=
  match env.fs_exists model_path with
  | none => (none, [.fs_exists model_path])
  | some model_exists =>
    if model_exists then
      (some true, [.fs_exists model_path, .cout ("Model found at: " ++ model_path ++ "\n")])
    else
      let asked : List Event :=
        [.fs_exists model_path, .cout "Model not found. Downloading model...\n",
          .fs_create_directories "./models"]
      match env.fs_create_directories "./models" with
      | none => (none, asked)
      | some _ =>
        let downloaded := download_model env model_path
        if ¬ downloaded.1 then
          (some false, asked ++ downloaded.2 ++ [.cerr "Model download failed. Exiting.\n"])
        else
          (some true, asked ++ downloaded.2)

/-- Lines 129-139 of `main`: the executable step.  The result `some false` is
the `return 1` of line 135, `none` an exception thrown by `fs::exists`
(line 130) or leaving `download_stable_diffusion`. -/
def main_executable_step (env : Env) (b : Build) : Option Bool × List Event :=
  match env.fs_exists "./supplementary/sd" with
  | none => (none, [.fs_exists "./supplementary/sd"])
  | some stable_diffusion_exists =>
    if ¬ stable_diffusion_exists then
      let downloaded := download_stable_diffusion env b
      let events : List Event :=
        [.fs_exists "./supplementary/sd",
          .cout "Stable Diffusion executable not found. Downloading...\n"] ++ downloaded.2
      match downloaded.1 with
      | none => (none, events)
      | some false =>
        (some false, events ++ [.cerr "Stable Diffusion download failed. Exiting.\n"])
      | some true => (some true, events)
    else
      (some true, [.fs_exists "./supplementary/sd", .cout "Stable Diffusion executable found.\n"])

/-- Lines 141-164 of `main`: prompt collection and invocation; the result is
the value returned by `main`.  Lines 153 and 158 pass `c_str()` to `system`,
line 157 prints the whole string. -/
def main_generation_step (env : Env) : Int × List Event :=
  let prompt := (getline env.stdin).1
  let output_filename := (getline (getline env.stdin).2).1
  let command := rpath_command
  let sd_command := sd_command model_path prompt output_filename
  let sd_result := env.system (c_str sd_command)
  let events : List Event :=
    [.cout "Enter your prompt: ", .getline prompt,
     .cout "Enter output filename (with .png extension): ", .getline output_filename,
     .system (c_str command),
     .cout ("Running Stable Diffusion with command: " ++ sd_command ++ "\n"),
     .system (c_str sd_command)]
  if sd_result ≠ 0 then (1, events ++ [.cerr "Stable Diffusion execution failed.\n"])
  else (0, events)

/-- Lines 107-165, for a build in which they compile.  The result is the exit
code, or `none` when the run is ended by an uncaught exception. -/
def main (env : Env) (b : Build) : Option Int × List Event :=
  let start : List Event := [.cout "Working path is: ", .fs_current_path]
  match env.current_path with
  | none => (none, start)
  | some path =>
    let start : List Event := start ++ [.cout (quoted path ++ "\n")]
    let model := main_model_step env
    match model.1 with
    | none => (none, start ++ model.2)
    | some false => (some 1, start ++ model.2)
    | some true =>
      let executable := main_executable_step env b
      match executable.1 with
      | none => (none, start ++ model.2 ++ executable.2)
      | some false => (some 1, start ++ model.2 ++ executable.2)
      | some true =>
        let generated := main_generation_step env
        (some generated.1, start ++ model.2 ++ executable.2 ++ generated.2)

/-! ## Vocabulary of the specification -/

/-- The characters erased by line 31. -/
def is_space (c : Char) : Bool := c = ' ' || c = '\n' || c = '\r' || c = '\t'

/-- A string with its trailing whitespace removed. -/
def rstrip (s : String) : String := ⟨s.data.rdropWhile is_space⟩

/-- The program a shell command starts: the text before its first blank. -/
def program_name (command : String) : String :=
  ⟨command.data.takeWhile (fun c => c ≠ ' ')⟩

/-- A transfer command is a `curl` command. -/
def is_transfer (command : String) : Bool := program_name command = "curl"

/-- An extraction command is an `unzip` or a `tar` command. -/
def is_extraction (command : String) : Bool :=
  program_name command = "unzip" || program_name command = "tar"

/-- The event runs an external command. -/
def Event.is_command : Event → Bool
  | .system _ => true
  | .popen _ => true
  | _ => false

/-- The external commands run, in order. -/
def commands (events : List Event) : List Event := events.filter Event.is_command

/-- The same world, except that `system(command)` returns `status`. -/
def Env.with_status (env : Env) (command : String) (status : Int) : Env :=
  { env with system := fun c => if c = command then status else env.system c }

/-- The command that downloads the model. -/
def model_download_command : String :=
  "curl -L -o ./models/v1-5-pruned-emaonly.safetensors https://huggingface.co/runwayml/stable-diffusion-v1-5/resolve/main/v1-5-pruned-emaonly.safetensors"

/-- The command that downloads the archive from `url`. -/
def archive_download_command (url : String) : String :=
  "curl -L -o ./supplementary/stable_diffusion.zip " ++ url

/-- The command whose output is read as the checksum of the archive. -/
def checksum_command : String :=
  "shasum -a 256 ./supplementary/stable_diffusion.zip | awk \x27\x7bprint $1\x7d\x27"

/-- The string that line 156 builds from the two lines of standard input. -/
def generation_text (env : Env) : String :=
  sd_command model_path (getline env.stdin).1 (getline (getline env.stdin).2).1

/-- The generation command that the shell receives at line 158. -/
def generation_command (env : Env) : String := c_str (generation_text env)

/-- The model step is ended by an exception: `fs::exists` throws, or the model
is absent and `fs::create_directories` throws. -/
def model_step_throws (env : Env) : Bool :=
  env.fs_exists "./models/v1-5-pruned-emaonly.safetensors" = none ||
    (env.fs_exists "./models/v1-5-pruned-emaonly.safetensors" = some false &&
      env.fs_create_directories "./models" = none)

/-- The model step succeeds: the model file exists, or the directory can be
created and the download exits 0. -/
def model_acquired (env : Env) : Bool :=
  env.fs_exists "./models/v1-5-pruned-emaonly.safetensors" = some true ||
    (env.fs_exists "./models/v1-5-pruned-emaonly.safetensors" = some false &&
      (env.fs_create_directories "./models").isSome &&
      env.system model_download_command = 0)

/-- The bundle step succeeds: the directory can be created, the archive
download exits 0, the checksum verifies and the extraction exits 0. -/
def bundle_acquired (env : Env) (b : Build) : Bool :=
  (env.fs_create_directories "./supplementary").isSome &&
  env.system (archive_download_command b.current_platform.url) = 0 &&
  (verify_download env "./supplementary/stable_diffusion.zip" b.current_platform.sha256).1
    = some true &&
  env.system (unzip_command b.macros) = 0

/-- The executable step is ended by an exception: `fs::exists` throws, or the
executable is absent and `fs::create_directories` throws. -/
def executable_step_throws (env : Env) : Bool :=
  env.fs_exists "./supplementary/sd" = none ||
    (env.fs_exists "./supplementary/sd" = some false &&
      env.fs_create_directories "./supplementary" = none)

/-- The executable step succeeds: the executable exists or the bundle step
succeeds. -/
def executable_acquired (env : Env) (b : Build) : Bool :=
  env.fs_exists "./supplementary/sd" = some true ||
    (env.fs_exists "./supplementary/sd" = some false && bundle_acquired env b)

/-- The run is ended by an exception of a filesystem call. -/
def aborts (env : Env) : Bool :=
  env.current_path = none || model_step_throws env ||
    (model_acquired env && executable_step_throws env)

/-- Both artifacts are available when the prompt is asked for. -/
def acquired (env : Env) (b : Build) : Bool :=
  env.current_path.isSome && model_acquired env && executable_acquired env b

/-- Full success: both artifacts are available and the generation executable
exits 0. -/
def full_success (env : Env) (b : Build) : Bool :=
  acquired env b && env.system (generation_command env) = 0

/-- Equality of two strings up to the case of their letters. -/
def eq_ignore_case (a b : String) : Bool :=
  a.data.map Char.toLower = b.data.map Char.toLower

/-- A lowercase hexadecimal digit. -/
def is_lower_hex (c : Char) : Bool := ('0' ≤ c && c ≤ '9') || ('a' ≤ c && c ≤ 'f')

/-! ## Sample worlds -/

/-- The macros of a build for macOS. -/
def apple_build : Macros := { __APPLE__ := true, __linux__ := false, _WIN32 := false }

/-- The macros of a build for Linux. -/
def linux_build : Macros := { __APPLE__ := false, __linux__ := true, _WIN32 := false }

/-- The macros of a build for Windows. -/
def windows_build : Macros := { __APPLE__ := false, __linux__ := false, _WIN32 := true }

/-- The program built for macOS. -/
def apple_program : Build := { macros := apple_build, declared := rfl }

/-- The program built for Linux. -/
def linux_program : Build := { macros := linux_build, declared := rfl }

/-- The program built for Windows. -/
def windows_program : Build := { macros := windows_build, declared := rfl }

/-- A fresh machine: nothing on disk, every filesystem call returns, every
command exits 0, and the hashing command prints `hash_output`. -/
def fresh_world (hash_output : String) : Env where
  current_path := some "/home/user/manuscripta"
  fs_exists := fun _ => some false
  fs_create_directories := fun _ => some true
  system := fun _ => 0
  popen := fun _ => some hash_output
  buffer_uninit := ""
  stdin := "a cat\nout.png\n"
  buffer_uninit_size := by decide

/-- A machine with both artifacts on disk, where every command exits 0. -/
def installed_world : Env where
  current_path := some "/home/user/manuscripta"
  fs_exists := fun _ => some true
  fs_create_directories := fun _ => some false
  system := fun _ => 0
  popen := fun _ => none
  buffer_uninit := ""
  stdin := "a cat\nout.png\n"
  buffer_uninit_size := by decide

/-- A machine where `./models` is a regular file: the model is absent,
`fs::create_directories` throws, and every command would exit 1. -/
def blocked_world : Env where
  current_path := some "/home/user/manuscripta"
  fs_exists := fun _ => some false
  fs_create_directories := fun _ => none
  system := fun _ => 1
  popen := fun _ => none
  buffer_uninit := ""
  stdin := "a cat\nout.png\n"
  buffer_uninit_size := by decide

/-- A machine with both artifacts on disk whose first input line holds a NUL. -/
def nul_world : Env where
  current_path := some "/home/user/manuscripta"
  fs_exists := fun _ => some true
  fs_create_directories := fun _ => some false
  system := fun _ => 0
  popen := fun _ => none
  buffer_uninit := ""
  stdin := "a\x00b\nout.png\n"
  buffer_uninit_size := by decide

/-! ## Trimming -/

theorem mem_space_chars (c : Char) : decide (c ∈ " \n\r\t".data) = is_space c := by
  simp [is_space, Bool.or_assoc]

theorem is_space_iff (c : Char) :
    is_space c = true ↔ c = ' ' ∨ c = '\n' ∨ c = '\r' ∨ c = '\t' := by
  simp [is_space, or_assoc]

theorem rdropWhile_cons_of_nil {α : Type} (p : α → Bool) (c : α) (cs : List α)
    (h : cs.rdropWhile p = []) :
    (c :: cs).rdropWhile p = if p c then [] else [c] := by
  induction cs using List.reverseRecOn with
  | nil => simp [List.rdropWhile_singleton]
  | append_singleton xs x ih =>
    rw [List.rdropWhile_concat] at h
    rw [← List.cons_append, List.rdropWhile_concat]
    by_cases hx : p x = true
    · simp only [hx, if_true] at h ⊢
      exact ih h
    · simp [hx] at h

theorem rdropWhile_cons_of_ne {α : Type} (p : α → Bool) (c : α) (cs : List α)
    (h : cs.rdropWhile p ≠ []) :
    (c :: cs).rdropWhile p = c :: cs.rdropWhile p := by
  induction cs using List.reverseRecOn with
  | nil => simp at h
  | append_singleton xs x ih =>
    rw [List.rdropWhile_concat] at h ⊢
    rw [← List.cons_append, List.rdropWhile_concat]
    by_cases hx : p x = true
    · simp only [hx, if_true] at h ⊢
      exact ih h
    · simp [hx]

theorem rdropWhile_append_of_pos {α : Type} (p : α → Bool) (h w : List α)
    (hw : ∀ c ∈ w, p c = true) : (h ++ w).rdropWhile p = h.rdropWhile p := by
  induction w using List.reverseRecOn with
  | nil => simp
  | append_singleton xs x ih =>
    rw [← List.append_assoc, List.rdropWhile_concat_pos _ _ _ (hw x (by simp))]
    exact ih (fun c hc => hw c (by simp [hc]))

theorem last_not_of_spec (chars : List Char) (l : List Char) (i : Nat) :
    match last_not_of chars i l with
    | some j => j + 1 = i + (l.rdropWhile (fun c => decide (c ∈ chars))).length
        ∧ l.rdropWhile (fun c => decide (c ∈ chars)) ≠ []
    | none => l.rdropWhile (fun c => decide (c ∈ chars)) = [] := by
  induction l generalizing i with
  | nil => simp [last_not_of]
  | cons c cs ih =>
    have h := ih (i + 1)
    unfold last_not_of
    cases hl : last_not_of chars (i + 1) cs with
    | some j =>
      rw [hl] at h
      simp only at h ⊢
      rw [rdropWhile_cons_of_ne _ _ _ h.2]
      refine ⟨?_, by simp⟩
      simp only [List.length_cons]
      omega
    | none =>
      rw [hl] at h
      simp only at h ⊢
      rw [rdropWhile_cons_of_nil _ _ _ h]
      by_cases hc : c ∈ chars
      · simp [hc]
      · simp [hc]

theorem trim_eq (s : String) (hs : s.length < size_t_range) : trim s = some (rstrip s) := by
  have h := last_not_of_spec " \n\r\t".data s.data 0
  have hp : (fun c => decide (c ∈ " \n\r\t".data)) = is_space := funext mem_space_chars
  rw [hp] at h
  have hpre : s.data.rdropWhile is_space <+: s.data := List.rdropWhile_prefix _ _
  have hlen : (s.data.rdropWhile is_space).length ≤ s.length := hpre.length_le
  unfold trim find_last_not_of erase rstrip
  cases hl : last_not_of " \n\r\t".data 0 s.data with
  | some j =>
    rw [hl] at h
    simp only at h ⊢
    have hj : (j + 1) % size_t_range = (s.data.rdropWhile is_space).length := by
      rw [Nat.mod_eq_of_lt] <;> omega
    rw [hj, if_pos hlen]
    congr 2
    exact (List.prefix_iff_eq_take.mp hpre).symm
  | none =>
    rw [hl] at h
    simp only at h ⊢
    have h0 : (npos + 1) % size_t_range = 0 := by decide
    rw [h0, h]
    simp

theorem trim_isSome (s : String) : (trim s).isSome = true := by
  have h := last_not_of_spec " \n\r\t".data s.data 0
  have hpre : s.data.rdropWhile (fun c => decide (c ∈ " \n\r\t".data)) <+: s.data :=
    List.rdropWhile_prefix _ _
  have hlen := hpre.length_le
  unfold trim find_last_not_of erase
  cases hl : last_not_of " \n\r\t".data 0 s.data with
  | some j =>
    rw [hl] at h
    simp only at h ⊢
    have : (j + 1) % size_t_range ≤ s.length := by
      calc (j + 1) % size_t_range ≤ j + 1 := Nat.mod_le _ _
        _ ≤ s.length := by rw [h.1]; simpa using hlen
    simp [this]
  | none =>
    have h0 : (npos + 1) % size_t_range = 0 := by decide
    simp [h0]

theorem rstrip_append_space (h w : String) (hw : ∀ c ∈ w.data, is_space c = true) :
    rstrip (h ++ w) = rstrip h := by
  simp only [rstrip, String.data_append, rdropWhile_append_of_pos _ _ _ hw]

theorem rstrip_of_no_space (x : String) (hx : ∀ c ∈ x.data, is_space c = false) :
    rstrip x = x := by
  unfold rstrip
  apply String.ext
  show x.data.rdropWhile is_space = x.data
  rw [List.rdropWhile_eq_self_iff]
  intro hl
  simp [hx _ (List.getLast_mem hl)]

/-! ## Reading the pipe -/

theorem fgets_chars_append (n : Nat) (h w : List Char) (hn : ∀ c ∈ h, c ≠ '\n')
    (hlen : h.length ≤ n) :
    fgets_chars n (h ++ w) = h ++ fgets_chars (n - h.length) w := by
  induction h generalizing n with
  | nil => simp
  | cons c cs ih =>
    cases n with
    | zero => simp at hlen
    | succ k =>
      have hc : c ≠ '\n' := hn c (by simp)
      have := ih k (fun d hd => hn d (by simp [hd])) (by simpa using hlen)
      simp only [List.cons_append, fgets_chars, hc, if_false, List.length_cons,
        Nat.add_sub_add_right, List.append_eq, this]

theorem fgets_chars_initial (n : Nat) (w : List Char) : fgets_chars n w <+: w := by
  induction w generalizing n with
  | nil => cases n <;> simp [fgets_chars]
  | cons c cs ih =>
    cases n with
    | zero => simp [fgets_chars]
    | succ k =>
      simp only [fgets_chars]
      split
      · exact ⟨cs, rfl⟩
      · exact (List.prefix_cons_inj c).mpr (ih k)

theorem fgets_chars_length (n : Nat) (l : List Char) : (fgets_chars n l).length ≤ n := by
  induction l generalizing n with
  | nil => cases n <;> simp [fgets_chars]
  | cons c cs ih =>
    cases n with
    | zero => simp [fgets_chars]
    | succ k =>
      simp only [fgets_chars]
      split
      · simp
      · simpa using ih k

theorem c_str_to_string_length (s : String) : (c_str_to_string s).length ≤ s.length := by
  unfold c_str_to_string
  exact (List.takeWhile_sublist _).length_le

/-- What line 30 builds when the pipe delivers a text `h` of at most 64 characters, free of
newlines and NULs, followed by whitespace. -/
theorem read_actual_sha256_eq (env : Env) (h w : String)
    (hn : ∀ c ∈ h.data, c ≠ '\n' ∧ c ≠ '\x00') (hlen : h.length ≤ 64)
    (hw : ∀ c ∈ w.data, is_space c = true) (hne : h ++ w ≠ "") :
    ∃ w' : String, (∀ c ∈ w'.data, is_space c = true) ∧
      read_actual_sha256 env (h ++ w) = h ++ w' := by
  refine ⟨⟨fgets_chars (64 - h.length) w.data⟩, ?_, ?_⟩
  · intro c hc
    exact hw c ((fgets_chars_initial _ _).subset hc)
  · have hd : (h ++ w).data ≠ [] := fun h0 => hne (String.ext h0)
    unfold read_actual_sha256 fgets
    rw [if_neg hd]
    simp only [String.data_append, Nat.add_one_sub_one]
    rw [fgets_chars_append 64 _ _ (fun c hc => (hn c hc).1) hlen]
    apply String.ext
    simp only [c_str_to_string, String.data_append]
    have hT : ∀ l : List Char, (∀ c ∈ l, c ≠ '\x00') →
        l.takeWhile (fun c => decide (c ≠ '\x00')) = l := by
      intro l hl
      rw [List.takeWhile_eq_self_iff]
      intro c hc
      simpa using hl c hc
    rw [hT]
    · rfl
    · intro c hc
      rcases List.mem_append.mp hc with hc | hc
      · exact (hn c hc).2
      · have := hw c ((fgets_chars_initial _ _).subset hc)
        rintro rfl
        simp [is_space] at this

theorem read_actual_sha256_length (env : Env) (out : String) :
    (read_actual_sha256 env out).length < size_t_range := by
  unfold read_actual_sha256 fgets
  split_ifs
  · exact lt_of_le_of_lt (c_str_to_string_length _) env.buffer_uninit_size
  · have h1 := c_str_to_string_length ⟨fgets_chars (65 - 1) out.data⟩
    have h2 := fgets_chars_length (65 - 1) out.data
    have h3 : (⟨fgets_chars (65 - 1) out.data⟩ : String).length
        = (fgets_chars (65 - 1) out.data).length := rfl
    have h4 : (64 : Nat) < size_t_range := by decide
    dsimp only
    omega

/-! ## Passing a string to a C function -/

theorem c_str_of_no_nul (s : String) (h : ∀ c ∈ s.data, c ≠ '\x00') : c_str s = s := by
  unfold c_str
  apply String.ext
  show s.data.takeWhile (fun c => decide (c ≠ '\x00')) = s.data
  rw [List.takeWhile_eq_self_iff]
  intro c hc
  simpa using h c hc

theorem c_str_model_download :
    c_str ("curl -L -o " ++ model_path ++ " https://huggingface.co/runwayml/stable-diffusion-v1-5/resolve/main/v1-5-pruned-emaonly.safetensors")
      = model_download_command := by
  decide

theorem c_str_checksum :
    c_str ("shasum -a 256 " ++ "./supplementary/stable_diffusion.zip" ++ " | awk \x27\x7bprint $1\x7d\x27")
      = checksum_command := by
  decide

theorem c_str_rpath : c_str rpath_command = rpath_command := by decide

theorem c_str_unzip (m : Macros) : c_str (unzip_command m) = unzip_command m := by
  by_cases h : m._WIN32 = true <;> simp only [unzip_command, h, if_true, if_false] <;> decide

/-! ## The platform table -/

theorem current_platform_mem (m : Macros) (info : platformInfo)
    (h : current_platform m = some info) : info = macOS ∨ info = linux ∨ info = windows := by
  unfold current_platform at h
  split_ifs at h <;> simp at h <;> simp [← h]

theorem build_current_platform_eq (b : Build) :
    CliFrontend.current_platform b.macros = some b.current_platform := by
  unfold Build.current_platform
  simp

theorem build_current_platform_mem (b : Build) :
    b.current_platform = macOS ∨ b.current_platform = linux ∨ b.current_platform = windows :=
  current_platform_mem b.macros _ (build_current_platform_eq b)

theorem sha256_length (b : Build) : 7 ≤ b.current_platform.sha256.length := by
  rcases (build_current_platform_mem b) with h | h | h <;> rw [h] <;> decide

set_option maxRecDepth 100000 in
theorem c_str_archive (b : Build) :
    c_str ("curl -L -o ./supplementary/stable_diffusion.zip " ++ b.current_platform.url)
      = archive_download_command b.current_platform.url := by
  rcases (build_current_platform_mem b) with h | h | h <;> rw [h] <;> decide

/-! ## The comparison -/

theorem checksum_matches_isSome (a e : String) (he : 7 ≤ e.length) :
    (checksum_matches a e).isSome = true := by
  unfold checksum_matches
  have h1 := trim_isSome a
  cases ht : trim a with
  | none => simp [ht] at h1
  | some t => simp [substr, he]

theorem checksum_matches_eq (a e : String) (he : 7 ≤ e.length) (ha : a.length < size_t_range) :
    checksum_matches a e = some (decide (rstrip a = ⟨e.data.drop 7⟩)) := by
  unfold checksum_matches
  rw [trim_eq a ha]
  simp [substr, he]

theorem verify_download_fst (env : Env) (f e : String) :
    (verify_download env f e).1 =
      match env.popen (c_str ("shasum -a 256 " ++ f ++ " | awk \x27\x7bprint $1\x7d\x27")) with
      | none => some false
      | some output => checksum_matches (read_actual_sha256 env output) e := by
  unfold verify_download
  dsimp only
  cases hp : env.popen (c_str ("shasum -a 256 " ++ f ++ " | awk \x27\x7bprint $1\x7d\x27")) with
  | none => rfl
  | some out =>
    dsimp only
    split <;> simp_all

theorem verify_download_isSome (env : Env) (f e : String) (he : 7 ≤ e.length) :
    (verify_download env f e).1.isSome = true := by
  rw [verify_download_fst]
  split
  · rfl
  · exact checksum_matches_isSome _ e he

theorem verify_download_eq (env : Env) (f e out : String) (he : 7 ≤ e.length)
    (hout : env.popen (c_str ("shasum -a 256 " ++ f ++ " | awk \x27\x7bprint $1\x7d\x27"))
      = some out) :
    (verify_download env f e).1
      = some (decide (rstrip (read_actual_sha256 env out) = ⟨e.data.drop 7⟩)) := by
  rw [verify_download_fst, hout]
  exact checksum_matches_eq _ _ he (read_actual_sha256_length env out)

theorem with_status_verify_download (env : Env) (c : String) (st : Int) (f e : String) :
    verify_download (env.with_status c st) f e = verify_download env f e := by
  unfold verify_download read_actual_sha256 Env.with_status
  rfl

/-! ## Results of the steps -/

theorem download_stable_diffusion_fst (env : Env) (b : Build) :
    (download_stable_diffusion env b).1 =
      if env.fs_create_directories "./supplementary" = none then none
      else some (bundle_acquired env b) := by
  unfold download_stable_diffusion bundle_acquired
  dsimp only
  rw [c_str_archive, c_str_unzip]
  cases hdir : env.fs_create_directories "./supplementary" with
  | none => rfl
  | some d =>
    dsimp only
    have hv := verify_download_isSome env "./supplementary/stable_diffusion.zip"
      b.current_platform.sha256 (sha256_length b)
    rcases hv' : (verify_download env "./supplementary/stable_diffusion.zip"
      b.current_platform.sha256).1 with _ | _ | _
    · simp [hv'] at hv
    · split_ifs <;> simp [*]
    · split_ifs <;> simp [*]

theorem main_model_step_fst (env : Env) :
    (main_model_step env).1 = if model_step_throws env then none else some (model_acquired env) := by
  unfold main_model_step download_model model_step_throws model_acquired
  dsimp only
  rw [c_str_model_download]
  have hmp : model_path = "./models/v1-5-pruned-emaonly.safetensors" := rfl
  rw [hmp]
  rcases hme : env.fs_exists "./models/v1-5-pruned-emaonly.safetensors" with _ | _ | _ <;>
  rcases hdir : env.fs_create_directories "./models" with _ | d <;>
  by_cases hmd : env.system model_download_command = 0 <;>
  simp [hmd]

theorem main_executable_step_fst (env : Env) (b : Build) :
    (main_executable_step env b).1 =
      if executable_step_throws env then none else some (executable_acquired env b) := by
  unfold main_executable_step executable_step_throws executable_acquired
  dsimp only
  rw [download_stable_diffusion_fst]
  rcases hse : env.fs_exists "./supplementary/sd" with _ | _ | _ <;>
  rcases hdir : env.fs_create_directories "./supplementary" with _ | d <;>
  cases hb : bundle_acquired env b <;>
  simp

theorem main_generation_step_fst (env : Env) :
    (main_generation_step env).1 = if env.system (generation_command env) = 0 then 0 else 1 := by
  unfold main_generation_step generation_command generation_text
  dsimp only
  split_ifs <;> simp_all

theorem main_fst (env : Env) (b : Build) :
    (main env b).1 =
      if aborts env then none
      else some (if acquired env b then (main_generation_step env).1 else 1) := by
  unfold main aborts acquired
  dsimp only
  rw [main_model_step_fst, main_executable_step_fst]
  cases env.current_path <;> cases model_step_throws env <;> cases model_acquired env <;>
    cases executable_step_throws env <;> cases executable_acquired env b <;> simp

theorem main_exit (env : Env) (b : Build) :
    (main env b).1 = if aborts env then none else some (if full_success env b then 0 else 1) := by
  rw [main_fst, main_generation_step_fst, full_success]
  cases aborts env <;> cases acquired env b <;> simp

/-! ## Events of a run -/

theorem main_snd (env : Env) (b : Build) :
    (main env b).2 =
      [.cout "Working path is: ", .fs_current_path] ++
        match env.current_path with
        | none => []
        | some path =>
          [.cout (quoted path ++ "\n")] ++ (main_model_step env).2
            ++ (if model_acquired env then (main_executable_step env b).2 else [])
            ++ (if model_acquired env && executable_acquired env b then
                  (main_generation_step env).2 else []) := by
  unfold main
  dsimp only
  rw [main_model_step_fst, main_executable_step_fst]
  have hx : model_step_throws env = true → model_acquired env = false := by
    unfold model_step_throws model_acquired
    rcases env.fs_exists "./models/v1-5-pruned-emaonly.safetensors" with _ | _ | _ <;>
      rcases env.fs_create_directories "./models" with _ | d <;> simp
  have hy : executable_step_throws env = true → executable_acquired env b = false := by
    unfold executable_step_throws executable_acquired bundle_acquired
    rcases env.fs_exists "./supplementary/sd" with _ | _ | _ <;>
      rcases env.fs_create_directories "./supplementary" with _ | d <;> simp
  cases env.current_path with
  | none => rfl
  | some path =>
    cases ht : model_step_throws env <;> cases hm : model_acquired env <;>
    cases hu : executable_step_throws env <;> cases he : executable_acquired env b <;>
    simp_all

/-! ## Standard input -/

theorem getline_line (p rest : String) (hp : ∀ c ∈ p.data, c ≠ '\n') :
    getline (p ++ "\n" ++ rest) = (p, rest) := by
  unfold getline
  have h1 : (p ++ "\n" ++ rest).data = p.data ++ '\n' :: rest.data := by
    simp [String.data_append]
  have h2 : List.takeWhile (fun c => decide (c ≠ '\n')) (p.data ++ '\n' :: rest.data) = p.data := by
    rw [List.takeWhile_append_of_pos (by simpa using hp)]
    simp
  dsimp only
  rw [h1, h2]
  simp

/-! ## Telling the commands apart -/

theorem program_name_model_download : program_name model_download_command = "curl" := by decide

theorem program_name_archive_download (url : String) :
    program_name (archive_download_command url) = "curl" := by
  simp [program_name, archive_download_command]

theorem program_name_unzip (m : Macros) :
    program_name (unzip_command m) = if m._WIN32 then "tar" else "unzip" := by
  by_cases h : m._WIN32 = true <;> simp only [unzip_command, h, if_true, if_false] <;> decide

theorem program_name_rpath : program_name rpath_command = "install_name_tool" := by decide

theorem program_name_c_str_sd_command (a p f : String) :
    program_name (c_str (sd_command a p f)) = "./supplementary/sd" := by
  simp [program_name, c_str, sd_command]

theorem program_name_generation (env : Env) :
    program_name (generation_command env) = "./supplementary/sd" :=
  program_name_c_str_sd_command _ _ _

theorem ne_of_program_name (a b na nb : String) (ha : program_name a = na)
    (hb : program_name b = nb) (h : na ≠ nb) : a ≠ b := by
  rintro rfl
  exact h (ha.symm.trans hb)

theorem archive_ne_model (url : String) :
    archive_download_command url ≠ model_download_command := by
  intro h
  have := congrArg String.data h
  simp [archive_download_command, model_download_command] at this

theorem archive_ne_rpath (url : String) : archive_download_command url ≠ rpath_command :=
  ne_of_program_name _ _ _ _ (program_name_archive_download url) program_name_rpath (by decide)

theorem archive_ne_generation (url : String) (env : Env) :
    archive_download_command url ≠ generation_command env :=
  ne_of_program_name _ _ _ _ (program_name_archive_download url) (program_name_generation env)
    (by decide)

theorem unzip_ne_model (m : Macros) : unzip_command m ≠ model_download_command :=
  ne_of_program_name _ _ _ _ (program_name_unzip m) program_name_model_download
    (by split <;> decide)

theorem unzip_ne_rpath (m : Macros) : unzip_command m ≠ rpath_command :=
  ne_of_program_name _ _ _ _ (program_name_unzip m) program_name_rpath (by split <;> decide)

theorem unzip_ne_generation (m : Macros) (env : Env) : unzip_command m ≠ generation_command env :=
  ne_of_program_name _ _ _ _ (program_name_unzip m) (program_name_generation env)
    (by split <;> decide)

theorem unzip_ne_archive (m : Macros) (url : String) :
    unzip_command m ≠ archive_download_command url :=
  ne_of_program_name _ _ _ _ (program_name_unzip m) (program_name_archive_download url)
    (by split <;> decide)

theorem model_ne_rpath : model_download_command ≠ rpath_command := by decide

theorem generation_ne_model (env : Env) : generation_command env ≠ model_download_command :=
  ne_of_program_name _ _ _ _ (program_name_generation env) program_name_model_download (by decide)

theorem generation_ne_rpath (env : Env) : generation_command env ≠ rpath_command :=
  ne_of_program_name _ _ _ _ (program_name_generation env) program_name_rpath (by decide)

/-! ## The commands of a run -/

theorem mem_commands (ev : Event) (l : List Event) :
    ev ∈ commands l ↔ ev ∈ l ∧ ev.is_command = true := by
  simp [commands]

theorem system_mem_iff (cmd : String) (l : List Event) :
    Event.system cmd ∈ l ↔ Event.system cmd ∈ commands l := by
  simp [mem_commands, Event.is_command]

theorem popen_mem_iff (cmd : String) (l : List Event) :
    Event.popen cmd ∈ l ↔ Event.popen cmd ∈ commands l := by
  simp [mem_commands, Event.is_command]

theorem count_commands (ev : Event) (l : List Event) (h : ev.is_command = true) :
    (commands l).count ev = l.count ev := by
  unfold commands
  exact List.count_filter h

theorem commands_append (l₁ l₂ : List Event) :
    commands (l₁ ++ l₂) = commands l₁ ++ commands l₂ := by
  simp [commands]

theorem commands_nil : commands [] = [] := rfl

theorem commands_cons (ev : Event) (l : List Event) :
    commands (ev :: l) = if ev.is_command then ev :: commands l else commands l := by
  simp only [commands, List.filter_cons]

theorem commands_verify_download (env : Env) (e : String) :
    commands (verify_download env "./supplementary/stable_diffusion.zip" e).2
      = [.popen checksum_command] := by
  unfold verify_download
  dsimp only
  rw [c_str_checksum]
  split
  · simp [commands, Event.is_command]
  · split <;> simp [commands, Event.is_command]

theorem commands_download_stable_diffusion (env : Env) (b : Build) :
    commands (download_stable_diffusion env b).2 =
      if (env.fs_create_directories "./supplementary").isSome then
        .system (archive_download_command b.current_platform.url) ::
          (if env.system (archive_download_command b.current_platform.url) = 0 then
            .popen checksum_command ::
              (if (verify_download env "./supplementary/stable_diffusion.zip"
                    b.current_platform.sha256).1 = some true
                then [.system (unzip_command b.macros)] else [])
          else [])
      else [] := by
  unfold download_stable_diffusion
  dsimp only
  rw [c_str_archive, c_str_unzip]
  have hv := commands_verify_download env b.current_platform.sha256
  cases hdir : env.fs_create_directories "./supplementary" with
  | none => simp [commands_cons, commands_nil, Event.is_command]
  | some d =>
    dsimp only
    by_cases hd : env.system (archive_download_command b.current_platform.url) = 0
    · rw [if_pos hd]
      rcases hv' : (verify_download env "./supplementary/stable_diffusion.zip"
        b.current_platform.sha256).1 with _ | _ | _
      · simp [commands_append, commands_cons, commands_nil, Event.is_command, hv, hd]
      · simp [commands_append, commands_cons, commands_nil, Event.is_command, hv, hd]
      · simp only [if_true, Option.isSome_some]
        split_ifs <;>
          simp [commands_append, commands_cons, commands_nil, Event.is_command, hv, hd]
    · rw [if_neg hd]
      simp [commands_append, commands_cons, commands_nil, Event.is_command, hd]

theorem commands_download_stable_diffusion_mem (env : Env) (b : Build) (ev : Event)
    (h : ev ∈ commands (download_stable_diffusion env b).2) :
    (∃ url, ev = .system (archive_download_command url)) ∨ ev = .popen checksum_command
      ∨ ev = .system (unzip_command b.macros) := by
  rw [commands_download_stable_diffusion] at h
  split_ifs at h <;> simp at h <;> aesop

theorem rpath_not_mem_download (env : Env) (b : Build) :
    Event.system rpath_command ∉ commands (download_stable_diffusion env b).2 := by
  intro hin
  rcases commands_download_stable_diffusion_mem env b _ hin with ⟨url, hu⟩ | hu | hu
  · exact archive_ne_rpath url (Event.system.inj hu).symm
  · simp at hu
  · exact unzip_ne_rpath b.macros (Event.system.inj hu).symm

theorem commands_main_model_step (env : Env) :
    commands (main_model_step env).2 =
      if env.fs_exists model_path = some false ∧ (env.fs_create_directories "./models").isSome
      then [.system model_download_command] else [] := by
  unfold main_model_step download_model
  dsimp only
  rw [c_str_model_download]
  rcases env.fs_exists model_path with _ | _ | _ <;>
    rcases env.fs_create_directories "./models" with _ | d <;>
    by_cases hmd : env.system model_download_command = 0 <;>
    simp [commands_append, commands_cons, commands_nil, Event.is_command, hmd]

theorem commands_main_executable_step (env : Env) (b : Build) :
    commands (main_executable_step env b).2 =
      if env.fs_exists "./supplementary/sd" = some false then
        commands (download_stable_diffusion env b).2
      else [] := by
  unfold main_executable_step
  dsimp only
  rcases env.fs_exists "./supplementary/sd" with _ | _ | _ <;>
    rcases (download_stable_diffusion env b).1 with _ | _ | _ <;>
    simp [commands_append, commands_cons, commands_nil, Event.is_command]

theorem commands_main_generation_step (env : Env) :
    commands (main_generation_step env).2 =
      [.system rpath_command, .system (generation_command env)] := by
  unfold main_generation_step generation_command generation_text
  dsimp only
  rw [c_str_rpath]
  split_ifs <;> simp [commands_append, commands_cons, commands_nil, Event.is_command]

theorem commands_main (env : Env) (b : Build) :
    commands (main env b).2 =
      (if env.current_path.isSome then
        (if env.fs_exists model_path = some false ∧ (env.fs_create_directories "./models").isSome
          then [.system model_download_command] else [])
        ++ (if model_acquired env = true ∧ env.fs_exists "./supplementary/sd" = some false then
              commands (download_stable_diffusion env b).2 else [])
       else [])
      ++ (if acquired env b then [.system rpath_command, .system (generation_command env)]
          else []) := by
  rw [main_snd]
  unfold acquired
  cases hc : env.current_path with
  | none => simp [commands_cons, commands_nil, Event.is_command]
  | some path =>
    simp only [commands_append, commands_cons, commands_nil, Event.is_command,
      commands_main_model_step]
    cases hm : model_acquired env <;> cases he : executable_acquired env b <;>
      rcases hs : env.fs_exists "./supplementary/sd" with _ | _ | _ <;>
      simp [commands_main_executable_step, commands_main_generation_step, hs, commands_nil]

/-- No command is passed to the shell twice in a run, so that an `Env` with one
answer per command describes every run. -/
theorem commands_main_nodup (env : Env) (b : Build) : (commands (main env b).2).Nodup := by
  rw [commands_main, commands_download_stable_diffusion]
  have a1 := fun url => archive_ne_model url
  have a2 := fun url => archive_ne_rpath url
  have a3 := fun url => archive_ne_generation url env
  have a4 := unzip_ne_model b.macros
  have a5 := unzip_ne_rpath b.macros
  have a6 := unzip_ne_generation b.macros env
  have a7 := fun url => unzip_ne_archive b.macros url
  have a8 := model_ne_rpath
  have a9 := generation_ne_model env
  have a10 := generation_ne_rpath env
  by_cases hc : env.current_path.isSome = true <;>
  by_cases hme : (env.fs_exists model_path = some false
    ∧ (env.fs_create_directories "./models").isSome = true) <;>
  by_cases hg : (model_acquired env = true ∧ env.fs_exists "./supplementary/sd" = some false) <;>
  by_cases ha : acquired env b = true <;>
  by_cases hdir : (env.fs_create_directories "./supplementary").isSome = true <;>
  by_cases hd : env.system (archive_download_command b.current_platform.url) = 0 <;>
  by_cases hv : (verify_download env "./supplementary/stable_diffusion.zip"
    b.current_platform.sha256).1 = some true <;>
  simp [hc, hme, hg, ha, hdir, hd, hv, List.nodup_append, List.nodup_cons, Ne.symm, *]

/-! ## The patch command has no influence -/

theorem with_status_rpath_system (env : Env) (st : Int) (c : String)
    (hc : program_name c ≠ "install_name_tool") :
    (env.with_status rpath_command st).system c = env.system c := by
  have : c ≠ rpath_command := ne_of_program_name _ _ _ _ rfl program_name_rpath hc
  simp [Env.with_status, this]

theorem with_status_rpath_model_acquired (env : Env) (st : Int) :
    model_acquired (env.with_status rpath_command st) = model_acquired env := by
  have h1 := with_status_rpath_system env st model_download_command (by decide)
  unfold model_acquired
  rw [h1]
  rfl

theorem with_status_rpath_aborts (env : Env) (st : Int) :
    aborts (env.with_status rpath_command st) = aborts env := by
  unfold aborts
  rw [with_status_rpath_model_acquired]
  rfl

theorem with_status_rpath_full_success (env : Env) (b : Build) (st : Int) :
    full_success (env.with_status rpath_command st) b = full_success env b := by
  have h2 := with_status_rpath_system env st (archive_download_command b.current_platform.url)
    (by rw [program_name_archive_download]; decide)
  have h3 := with_status_rpath_system env st (unzip_command b.macros)
    (by rw [program_name_unzip]; split <;> decide)
  have h4 := with_status_rpath_system env st (generation_command env)
    (by rw [program_name_generation]; decide)
  have h5 : generation_command (env.with_status rpath_command st) = generation_command env := rfl
  have hb : bundle_acquired (env.with_status rpath_command st) b = bundle_acquired env b := by
    unfold bundle_acquired
    rw [h2, h3, with_status_verify_download]
    rfl
  have he : executable_acquired (env.with_status rpath_command st) b
      = executable_acquired env b := by
    unfold executable_acquired
    rw [hb]
    rfl
  unfold full_success acquired
  rw [h5, h4, with_status_rpath_model_acquired, he]
  rfl

/-! ## Where a command of a run comes from -/

theorem model_acquired_not_throws (env : Env) (h : model_acquired env = true) :
    model_step_throws env = false := by
  revert h
  unfold model_step_throws model_acquired
  rcases env.fs_exists "./models/v1-5-pruned-emaonly.safetensors" with _ | _ | _ <;>
    rcases env.fs_create_directories "./models" with _ | d <;> simp

theorem commands_main_mem (env : Env) (b : Build) (ev : Event)
    (h : ev ∈ commands (main env b).2) :
    (ev = .system model_download_command ∧ env.fs_exists model_path = some false)
    ∨ (ev ∈ commands (download_stable_diffusion env b).2 ∧ env.current_path.isSome = true
        ∧ model_acquired env = true ∧ env.fs_exists "./supplementary/sd" = some false)
    ∨ (acquired env b = true
        ∧ (ev = .system rpath_command ∨ ev = .system (generation_command env))) := by
  rw [commands_main] at h
  by_cases h1 : env.current_path.isSome = true <;>
  by_cases h2 : (env.fs_exists model_path = some false
    ∧ (env.fs_create_directories "./models").isSome = true) <;>
  by_cases h3 : (model_acquired env = true
    ∧ env.fs_exists "./supplementary/sd" = some false) <;>
  by_cases h4 : acquired env b = true <;>
  simp only [h1, h2, h3, h4, if_true, if_false, List.mem_append, List.mem_cons,
    List.mem_singleton, List.not_mem_nil, or_false, false_or, and_self, false_and,
    Bool.false_eq_true, List.append_nil, List.nil_append] at h ⊢ <;>
  tauto

theorem commands_main_of_executable (env : Env) (b : Build)
    (h : env.fs_exists "./supplementary/sd" = some true) :
    commands (main env b).2 =
      (if env.current_path.isSome = true ∧ env.fs_exists model_path = some false
          ∧ (env.fs_create_directories "./models").isSome = true
        then [.system model_download_command] else [])
      ++ (if env.current_path.isSome = true ∧ model_acquired env = true
          then [.system rpath_command, .system (generation_command env)] else []) := by
  rw [commands_main]
  unfold acquired executable_acquired
  by_cases h1 : env.current_path.isSome = true <;>
  by_cases h2 : (env.fs_exists model_path = some false
    ∧ (env.fs_create_directories "./models").isSome = true) <;>
  by_cases h3 : model_acquired env = true <;>
  simp [h, h1, h2, h3]

theorem model_exists_acquired (env : Env) (h : env.fs_exists model_path = some true) :
    model_acquired env = true := by
  have hmp : model_path = "./models/v1-5-pruned-emaonly.safetensors" := rfl
  rw [hmp] at h
  simp [model_acquired, h]

theorem main_snd_of_installed (env : Env) (b : Build) (path : String)
    (hc : env.current_path = some path)
    (hm : env.fs_exists model_path = some true)
    (hs : env.fs_exists "./supplementary/sd" = some true) :
    (main env b).2 =
      [.cout "Working path is: ", .fs_current_path, .cout (quoted path ++ "\n"),
        .fs_exists model_path, .cout ("Model found at: " ++ model_path ++ "\n"),
        .fs_exists "./supplementary/sd", .cout "Stable Diffusion executable found.\n"]
        ++ (main_generation_step env).2 := by
  have hma := model_exists_acquired env hm
  have he : executable_acquired env b = true := by simp [executable_acquired, hs]
  rw [main_snd, hc]
  simp [main_model_step, main_executable_step, hm, hs, hma, he]

/-! ## The claims -/

/-- Claim C1: on every build, when the archive download exits 0 but
`verify_download` returns false, `download_stable_diffusion` returns false
after running only the download and the checksum command (unless
`fs::create_directories` threw before the download); no `unzip` or `tar`
command is run, neither by it nor anywhere in `main`, and `main`, which calls
it because the executable is absent, exits with code 1 unless a filesystem
call ended the run before. -/
theorem verification_failure_skips_extraction (env : Env) (b : Build) (info : platformInfo)
    (hp : current_platform b.macros = some info)
    (hd : env.system ("curl -L -o ./supplementary/stable_diffusion.zip " ++ info.url) = 0)
    (hv : (verify_download env "./supplementary/stable_diffusion.zip" info.sha256).1 = some false) :
    (download_stable_diffusion env b).1
        = (if env.fs_create_directories "./supplementary" = none then none else some false)
    ∧ commands (download_stable_diffusion env b).2
        = (if (env.fs_create_directories "./supplementary").isSome then
            [.system (archive_download_command info.url), .popen checksum_command] else [])
    ∧ (∀ cmd, Event.system cmd ∈ (download_stable_diffusion env b).2 → is_extraction cmd = false)
    ∧ (∀ cmd, Event.system cmd ∈ (main env b).2 → is_extraction cmd = false)
    ∧ (env.fs_exists "./supplementary/sd" = some false →
        (main env b).1 = if aborts env then none else some 1)
    ∧ (Event.system (archive_download_command info.url) ∈ (main env b).2 →
        (main env b).1 = some 1)
    ∧ (env.fs_create_directories "./supplementary" ≠ none →
        (download_stable_diffusion env b).1 = some false) := by
  have hinfo : b.current_platform = info := by
    have := build_current_platform_eq b
    rw [hp] at this
    exact (Option.some.inj this).symm
  subst hinfo
  replace hd : env.system (archive_download_command b.current_platform.url) = 0 := hd
  have hb : bundle_acquired env b = false := by
    simp [bundle_acquired, hd, hv]
  have hc : commands (download_stable_diffusion env b).2
        = (if (env.fs_create_directories "./supplementary").isSome then
            [.system (archive_download_command b.current_platform.url), .popen checksum_command]
           else []) := by
    rw [commands_download_stable_diffusion]
    simp [hd, hv]
  have hx : ∀ cmd, Event.system cmd ∈ commands (download_stable_diffusion env b).2 →
      is_extraction cmd = false := by
    intro cmd hcmd
    rw [hc] at hcmd
    split_ifs at hcmd <;> simp at hcmd
    subst hcmd
    simp [is_extraction, program_name_archive_download]
  refine ⟨?_, hc, ?_, ?_, ?_, ?_, ?_⟩
  rotate_left 5
  · intro hdir
    rw [download_stable_diffusion_fst, hb, if_neg hdir]
  · rw [download_stable_diffusion_fst, hb]
  · intro cmd hcmd
    exact hx cmd ((system_mem_iff _ _).mp hcmd)
  · intro cmd hcmd
    rcases commands_main_mem env b _ ((system_mem_iff _ _).mp hcmd) with h | h | h
    · rw [Event.system.inj h.1]
      decide
    · exact hx cmd h.1
    · rcases h.2 with h | h <;> rw [Event.system.inj h]
      · decide
      · simp [is_extraction, program_name_generation]
  · intro hs
    have ha : acquired env b = false := by
      unfold acquired executable_acquired
      simp [hs, hb]
    rw [main_fst, ha]
    simp
  · intro hin
    have key : env.current_path.isSome = true ∧ model_acquired env = true
        ∧ env.fs_exists "./supplementary/sd" = some false
        ∧ (env.fs_create_directories "./supplementary").isSome = true := by
      rcases commands_main_mem env b _ ((system_mem_iff _ _).mp hin) with h | h | h
      · exact absurd (Event.system.inj h.1) (archive_ne_model _)
      · refine ⟨h.2.1, h.2.2.1, h.2.2.2, ?_⟩
        have h1 := h.1
        rw [hc] at h1
        split_ifs at h1 with h5
        · exact h5
        · simp at h1
      · rcases h.2 with h | h
        · exact absurd (Event.system.inj h) (archive_ne_rpath _)
        · exact absurd (Event.system.inj h) (archive_ne_generation _ _)
    obtain ⟨k1, k2, k3, k4⟩ := key
    have hab : aborts env = false := by
      unfold aborts executable_step_throws
      rw [model_acquired_not_throws env k2, k3]
      cases hcp : env.current_path with
      | none => simp [hcp] at k1
      | some p =>
        cases hdd : env.fs_create_directories "./supplementary" with
        | none => simp [hdd] at k4
        | some d => simp
    have ha : acquired env b = false := by
      unfold acquired executable_acquired
      simp [k3, hb]
    rw [main_fst, hab, ha]
    simp

/-- Witness of claim C1: a Linux build on a fresh machine whose hashing command
prints a hash other than the expected one. -/
theorem verification_failure_skips_extraction_witness :
    current_platform linux_program.macros = some linux
    ∧ (verify_download (fresh_world "0000\n") "./supplementary/stable_diffusion.zip"
        linux.sha256).1 = some false
    ∧ (download_stable_diffusion (fresh_world "0000\n") linux_program).1 = some false
    ∧ (main (fresh_world "0000\n") linux_program).1 = some 1 :=
  have h := verification_failure_skips_extraction (fresh_world "0000\n") linux_program linux
    (by decide) (by decide) (by decide)
  ⟨by decide, by decide, h.1.trans (by decide), (h.2.2.2.2.1 (by decide)).trans (by decide)⟩

set_option maxRecDepth 100000 in
/-- Counterexample to claim C2: the hashing command prints the macOS checksum
in upper case; it equals the expected hex digits up to letter case, yet
`verify_download` returns false. -/
theorem verify_download_case_sensitive_counterexample :
    eq_ignore_case "49BB1C0273EFB6A36A26926ECE674DAFFE49CD4A51C9E8935B5C9E8EB68B7EA2"
        "49bb1c0273efb6a36a26926ece674daffe49cd4a51c9e8935b5c9e8eb68b7ea2" = true
    ∧ macOS.sha256 = "sha256:49bb1c0273efb6a36a26926ece674daffe49cd4a51c9e8935b5c9e8eb68b7ea2"
    ∧ (verify_download
        (fresh_world "49BB1C0273EFB6A36A26926ECE674DAFFE49CD4A51C9E8935B5C9E8EB68B7EA2\n")
        "./supplementary/stable_diffusion.zip" macOS.sha256).1 = some false := by
  decide

/-- Claim C2, amended: the comparison is exact, hence case-sensitive.  When the
hashing command prints a non-empty text `x` of at most 64 characters, free of
whitespace and NUL, followed by whitespace, `verify_download` on the expected
value `"sha256:" ++ y` returns true exactly when `x` and `y` are the same
string. -/
theorem verify_download_exact_comparison (env : Env) (f x y w : String)
    (hx : ∀ c ∈ x.data, is_space c = false ∧ c ≠ '\x00') (hne : x ≠ "") (hlen : x.length ≤ 64)
    (hw : ∀ c ∈ w.data, is_space c = true)
    (hout : env.popen (c_str ("shasum -a 256 " ++ f ++ " | awk \x27\x7bprint $1\x7d\x27")) = some (x ++ w)) :
    (verify_download env f ("sha256:" ++ y)).1 = some (decide (x = y)) := by
  have hn : ∀ c ∈ x.data, c ≠ '\n' ∧ c ≠ '\x00' := by
    intro c hc
    refine ⟨?_, (hx c hc).2⟩
    rintro rfl
    have := (hx _ hc).1
    simp [is_space] at this
  have hne' : x ++ w ≠ "" := by
    intro h0
    apply hne
    have := congrArg String.length h0
    have hl : x.length = 0 := by
      rw [String.length_append] at this
      have h00 : ("" : String).length = 0 := rfl
      omega
    apply String.ext
    exact List.length_eq_zero.mp hl
  obtain ⟨w', hw2, hr⟩ := read_actual_sha256_eq env x w hn hlen hw hne'
  have he : 7 ≤ ("sha256:" ++ y).length := by
    rw [String.length_append]
    have : "sha256:".length = 7 := by decide
    omega
  rw [verify_download_eq env f _ _ he hout, hr, rstrip_append_space x w' hw2,
    rstrip_of_no_space x (fun c hc => (hx c hc).1)]
  have hy : (⟨("sha256:" ++ y).data.drop 7⟩ : String) = y := by
    apply String.ext
    simp [String.data_append]
  rw [hy]

/-- Witness of claim C2: the same digits are accepted, and the same digits in
the other case are rejected. -/
theorem verify_download_exact_comparison_witness :
    (verify_download (fresh_world "abc123\n") "./supplementary/stable_diffusion.zip"
        ("sha256:" ++ "abc123")).1 = some true
    ∧ (verify_download (fresh_world "ABC123\n") "./supplementary/stable_diffusion.zip"
        ("sha256:" ++ "abc123")).1 = some false :=
  ⟨verify_download_exact_comparison (fresh_world "abc123\n")
      "./supplementary/stable_diffusion.zip" "abc123" "abc123" "\n"
      (by decide) (by decide) (by decide) (by decide) rfl,
    verify_download_exact_comparison (fresh_world "ABC123\n")
      "./supplementary/stable_diffusion.zip" "ABC123" "abc123" "\n"
      (by decide) (by decide) (by decide) (by decide) rfl⟩

/-- Claim C3: the comparison of lines 31-33 ignores trailing whitespace of the
computed hash.  For the string `h ++ w` built at line 30, with `w` made of
blanks, newlines, carriage returns and tabs, and an expected value of at least
7 characters, the result is the comparison of `h` without its trailing
whitespace against the expected value without its first 7 characters; it is
the result for `h` itself, and an output of whitespace only is compared as the
empty string.  The same holds for `verify_download` when the pipe delivers
`h ++ w` and `h` fits the 64 characters read by `fgets`. -/
theorem checksum_ignores_trailing_whitespace (h e w : String) (he : 7 ≤ e.length)
    (hw : ∀ c ∈ w.data, c = ' ' ∨ c = '\n' ∨ c = '\r' ∨ c = '\t')
    (hsize : (h ++ w).length < size_t_range) :
    checksum_matches (h ++ w) e = some (decide (rstrip h = ⟨e.data.drop 7⟩))
    ∧ checksum_matches (h ++ w) e = checksum_matches h e
    ∧ checksum_matches w e = some (decide ("" = (⟨e.data.drop 7⟩ : String)))
    ∧ ∀ (env : Env) (f : String),
        env.popen (c_str ("shasum -a 256 " ++ f ++ " | awk \x27\x7bprint $1\x7d\x27")) = some (h ++ w) →
        h ++ w ≠ "" → h.length ≤ 64 → (∀ c ∈ h.data, c ≠ '\n' ∧ c ≠ '\x00') →
        (verify_download env f e).1 = some (decide (rstrip h = ⟨e.data.drop 7⟩)) := by
  have hw' : ∀ c ∈ w.data, is_space c = true := fun c hc => (is_space_iff c).mpr (hw c hc)
  have hlen : (h ++ w).length = h.length + w.length := String.length_append h w
  have hh : h.length < size_t_range := by omega
  have hwl : w.length < size_t_range := by omega
  have h1 : checksum_matches (h ++ w) e = some (decide (rstrip h = ⟨e.data.drop 7⟩)) := by
    rw [checksum_matches_eq _ _ he hsize, rstrip_append_space h w hw']
  refine ⟨h1, ?_, ?_, ?_⟩
  · rw [h1, checksum_matches_eq _ _ he hh]
  · rw [checksum_matches_eq _ _ he hwl]
    have : rstrip w = "" := by
      have := rstrip_append_space "" w hw'
      have e0 : ("" : String) ++ w = w := by apply String.ext; simp
      rw [e0] at this
      rw [this]
      decide
    rw [this]
  · intro env f hout hne hl hn
    obtain ⟨w', hw2, hr⟩ := read_actual_sha256_eq env h w hn hl hw' hne
    rw [verify_download_eq env f e _ he hout, hr, rstrip_append_space h w' hw2]

/-- Witness of claim C3: the hash `abc` followed by a blank and a newline. -/
theorem checksum_ignores_trailing_whitespace_witness :
    checksum_matches ("abc" ++ " \n") "sha256:abc" = some true
    ∧ checksum_matches " \n" "sha256:abc" = some false
    ∧ (verify_download (fresh_world ("abc" ++ " \n")) "./supplementary/stable_diffusion.zip"
        "sha256:abc").1 = some true :=
  have h := checksum_ignores_trailing_whitespace "abc" "sha256:abc" " \n"
    (by decide) (by decide) (by decide)
  ⟨h.1.trans (by decide), h.2.2.1.trans (by decide),
    (h.2.2.2 (fresh_world ("abc" ++ " \n")) "./supplementary/stable_diffusion.zip" rfl
      (by decide) (by decide) (by decide)).trans (by decide)⟩

/-- Counterexample to claim C4: `./models` is a regular file, so the model is
absent and `fs::create_directories("./models")` throws.  The run is not a full
success, yet `main` does not return 1: it is ended by the exception. -/
theorem main_exit_code_exception_counterexample :
    blocked_world.current_path ≠ none
    ∧ blocked_world.fs_exists "./models/v1-5-pruned-emaonly.safetensors" = some false
    ∧ blocked_world.fs_create_directories "./models" = none
    ∧ blocked_world.system model_download_command ≠ 0
    ∧ (main blocked_world apple_program).1 = none
    ∧ (main blocked_world apple_program).1 ≠ some 1 := by
  decide

/-- Claim C4, amended: when no filesystem call of the run throws, `main`
returns 0 on full success and 1 otherwise, where full success means: the model
file exists or its directory can be created and its download exits 0, and the
executable exists or the staging directory can be created, the archive
download exits 0, the checksum verifies and the extraction exits 0, and the
generation executable exits 0.  When `fs::current_path`, `fs::exists` or
`fs::create_directories` throws, the run is ended by the exception and `main`
returns neither value.  The exit status of the library-path patch command has
no influence on the result. -/
theorem main_exit_code (env : Env) (b : Build) :
    (main env b).1 = (if aborts env then none else some (if full_success env b then 0 else 1))
    ∧ (aborts env = true ↔
        env.current_path = none
        ∨ env.fs_exists "./models/v1-5-pruned-emaonly.safetensors" = none
        ∨ (env.fs_exists "./models/v1-5-pruned-emaonly.safetensors" = some false
            ∧ env.fs_create_directories "./models" = none)
        ∨ (model_acquired env = true ∧
            (env.fs_exists "./supplementary/sd" = none
              ∨ (env.fs_exists "./supplementary/sd" = some false
                  ∧ env.fs_create_directories "./supplementary" = none))))
    ∧ (full_success env b = true ↔
        env.current_path ≠ none
        ∧ (env.fs_exists "./models/v1-5-pruned-emaonly.safetensors" = some true
          ∨ (env.fs_exists "./models/v1-5-pruned-emaonly.safetensors" = some false
              ∧ env.fs_create_directories "./models" ≠ none
              ∧ env.system "curl -L -o ./models/v1-5-pruned-emaonly.safetensors https://huggingface.co/runwayml/stable-diffusion-v1-5/resolve/main/v1-5-pruned-emaonly.safetensors" = 0))
        ∧ (env.fs_exists "./supplementary/sd" = some true
          ∨ (env.fs_exists "./supplementary/sd" = some false
              ∧ env.fs_create_directories "./supplementary" ≠ none
              ∧ env.system ("curl -L -o ./supplementary/stable_diffusion.zip "
                  ++ b.current_platform.url) = 0
              ∧ (verify_download env "./supplementary/stable_diffusion.zip"
                  b.current_platform.sha256).1 = some true
              ∧ env.system (unzip_command b.macros) = 0))
        ∧ env.system (c_str (sd_command "./models/v1-5-pruned-emaonly.safetensors"
            (getline env.stdin).1 (getline (getline env.stdin).2).1)) = 0)
    ∧ ∀ status, (main (env.with_status rpath_command status) b).1 = (main env b).1 := by
  refine ⟨main_exit env b, ?_, ?_, ?_⟩
  · unfold aborts model_step_throws executable_step_throws
    simp [or_assoc]
  · unfold full_success acquired model_acquired executable_acquired bundle_acquired
      generation_command generation_text model_download_command archive_download_command
      model_path
    cases env.current_path <;> simp [and_assoc, Option.isSome_iff_ne_none]
  · intro status
    rw [main_exit, main_exit, with_status_rpath_full_success, with_status_rpath_aborts]

/-- Witness of claim C4: a full success on a fresh macOS machine, the same run
with the patch command failing, and a run ended by an exception. -/
theorem main_exit_code_witness :
    (main (fresh_world "49bb1c0273efb6a36a26926ece674daffe49cd4a51c9e8935b5c9e8eb68b7ea2\n")
        apple_program).1 = some 0
    ∧ (main ((fresh_world "49bb1c0273efb6a36a26926ece674daffe49cd4a51c9e8935b5c9e8eb68b7ea2\n").with_status
        rpath_command 127) apple_program).1 = some 0
    ∧ (main blocked_world linux_program).1 = none :=
  have h := main_exit_code
    (fresh_world "49bb1c0273efb6a36a26926ece674daffe49cd4a51c9e8935b5c9e8eb68b7ea2\n")
    apple_program
  ⟨h.1.trans (by decide), (h.2.2.2 127).trans (h.1.trans (by decide)),
    (main_exit_code blocked_world linux_program).1.trans (by decide)⟩

/-- Claim C5: when `./supplementary/sd` exists, the only commands of a run of
`main` are the model download (if the model is absent), the patch command and
the generation command.  None of the commands that `download_stable_diffusion`
can run, on any build and in any world, occurs in the run: no `popen`, no
extraction, and no transfer other than the model download. -/
theorem executable_present_skips_bundle (env : Env) (b : Build) (h : env.fs_exists "./supplementary/sd" = some true) :
    commands (main env b).2 =
      (if env.current_path.isSome = true ∧ env.fs_exists model_path = some false
          ∧ (env.fs_create_directories "./models").isSome = true
        then [.system model_download_command] else [])
      ++ (if env.current_path.isSome = true ∧ model_acquired env = true
          then [.system rpath_command, .system (generation_command env)] else [])
    ∧ (∀ env' b' ev, ev ∈ commands (download_stable_diffusion env' b').2 → ev ∉ (main env b).2)
    ∧ (∀ cmd, Event.popen cmd ∉ (main env b).2)
    ∧ (∀ cmd, Event.system cmd ∈ (main env b).2 →
        is_extraction cmd = false ∧ (is_transfer cmd = true → cmd = model_download_command)) := by
  have hc := commands_main_of_executable env b h
  have hmem : ∀ ev, ev ∈ commands (main env b).2 →
      ev = .system model_download_command ∨ ev = .system rpath_command
        ∨ ev = .system (generation_command env) := by
    intro ev hev
    rw [hc] at hev
    simp only [List.mem_append] at hev
    rcases hev with hev | hev <;> split_ifs at hev <;> simp at hev <;> tauto
  refine ⟨hc, ?_, ?_, ?_⟩
  · intro env' b' ev hev hin
    have hcmd : ev.is_command = true := ((mem_commands _ _).mp hev).2
    have h1 := hmem ev ((mem_commands _ _).mpr ⟨hin, hcmd⟩)
    have h2 := commands_download_stable_diffusion_mem env' b' ev hev
    rcases h2 with ⟨url, h2⟩ | h2 | h2 <;> subst h2
    · simp only [Event.system.injEq, reduceCtorEq, or_false, false_or] at h1
      rcases h1 with h1 | h1 | h1
      · exact archive_ne_model url h1
      · exact archive_ne_rpath url h1
      · exact archive_ne_generation url env h1
    · simp at h1
    · simp only [Event.system.injEq] at h1
      rcases h1 with h1 | h1 | h1
      · exact unzip_ne_model b'.macros h1
      · exact unzip_ne_rpath b'.macros h1
      · exact unzip_ne_generation b'.macros env h1
  · intro cmd hcmd
    have := hmem _ ((popen_mem_iff _ _).mp hcmd)
    simp at this
  · intro cmd hcmd
    have := hmem _ ((system_mem_iff _ _).mp hcmd)
    simp only [Event.system.injEq] at this
    rcases this with h1 | h1 | h1 <;> subst h1
    · exact ⟨by decide, fun _ => rfl⟩
    · exact ⟨by decide, by decide⟩
    · refine ⟨by simp [is_extraction, program_name_generation], ?_⟩
      simp [is_transfer, program_name_generation]

/-- Witness of claim C5: a Windows build on a machine with both artifacts. -/
theorem executable_present_skips_bundle_witness :
    installed_world.fs_exists "./supplementary/sd" = some true
    ∧ ∀ cmd, Event.popen cmd ∉ (main installed_world windows_program).2 :=
  ⟨by decide,
    (executable_present_skips_bundle installed_world windows_program (by decide)).2.2.1⟩

/-- Claim C6: when the model file exists, no run of `main` contains the model
download command, nor any command `download_model` can run.  When the
executable exists as well, the only commands of the run are the patch command
and the generation command, none of them a transfer, and after the two
existence checks the run goes straight to asking for the prompt. -/
theorem model_present_skips_download (env : Env) (b : Build) (h : env.fs_exists model_path = some true) :
    Event.system model_download_command ∉ (main env b).2
    ∧ (∀ env' ev, ev ∈ commands (download_model env' model_path).2 → ev ∉ (main env b).2)
    ∧ (env.fs_exists "./supplementary/sd" = some true →
        commands (main env b).2 =
          (if env.current_path.isSome then
            [.system rpath_command, .system (generation_command env)] else [])
        ∧ (∀ cmd, Event.system cmd ∈ (main env b).2 ∨ Event.popen cmd ∈ (main env b).2 →
            is_transfer cmd = false)
        ∧ ∀ path, env.current_path = some path → ∃ rest, (main env b).2 =
            [.cout "Working path is: ", .fs_current_path, .cout (quoted path ++ "\n"),
              .fs_exists model_path,
              .cout "Model found at: ./models/v1-5-pruned-emaonly.safetensors\n",
              .fs_exists "./supplementary/sd", .cout "Stable Diffusion executable found.\n",
              .cout "Enter your prompt: ", .getline (getline env.stdin).1] ++ rest) := by
  have hma := model_exists_acquired env h
  have h1 : Event.system model_download_command ∉ (main env b).2 := by
    intro hin
    rcases commands_main_mem env b _ ((system_mem_iff _ _).mp hin) with h2 | h2 | h2
    · rw [h] at h2
      simp at h2
    · rcases commands_download_stable_diffusion_mem env b _ h2.1 with ⟨url, hu⟩ | hu | hu
      · exact archive_ne_model url (Event.system.inj hu).symm
      · simp at hu
      · exact unzip_ne_model b.macros (Event.system.inj hu).symm
    · rcases h2.2 with h3 | h3
      · exact model_ne_rpath (Event.system.inj h3)
      · exact generation_ne_model env (Event.system.inj h3).symm
  refine ⟨h1, ?_, ?_⟩
  · intro env' ev hev
    unfold download_model at hev
    dsimp only at hev
    rw [c_str_model_download] at hev
    split_ifs at hev <;>
      simp [commands_cons, commands_nil, Event.is_command] at hev <;>
      subst hev <;> exact h1
  · intro hs
    have hc : commands (main env b).2 =
        (if env.current_path.isSome then
          [.system rpath_command, .system (generation_command env)] else []) := by
      rw [commands_main_of_executable env b hs]
      simp [h, hma]
    refine ⟨hc, ?_, ?_⟩
    · intro cmd hcmd
      rw [system_mem_iff, popen_mem_iff, hc] at hcmd
      split_ifs at hcmd <;> simp at hcmd
      rcases hcmd with hcmd | hcmd <;> subst hcmd
      · decide
      · simp [is_transfer, program_name_generation]
    · intro path hp
      rw [main_snd_of_installed env b path hp h hs]
      unfold main_generation_step
      dsimp only
      split_ifs
      · exact ⟨_, by simp [model_path]; rfl⟩
      · exact ⟨_, by simp [model_path]; rfl⟩

/-- Witness of claim C6: a macOS build on a machine with both artifacts. -/
theorem model_present_skips_download_witness :
    installed_world.fs_exists model_path = some true
    ∧ Event.system model_download_command ∉ (main installed_world apple_program).2
    ∧ commands (main installed_world apple_program).2
        = [.system rpath_command, .system (generation_command installed_world)] :=
  have h := model_present_skips_download installed_world apple_program (by decide)
  ⟨by decide, h.1, (h.2.2 (by decide)).1.trans (by decide)⟩

/-- Counterexample to claim C8: the patch command is run on Linux and on
Windows builds. -/
theorem rpath_command_other_platforms_counterexample :
    current_platform linux_build = some linux
    ∧ Event.system rpath_command ∈ (main installed_world linux_program).2
    ∧ current_platform windows_build = some windows
    ∧ Event.system rpath_command ∈ (main installed_world windows_program).2 := by
  decide

/-- Claim C8, amended: the patch command is not tied to a platform.  On every
build, a run of `main` contains it exactly once when both artifacts are
acquired, and not at all otherwise; when it is run, it comes right after the
two lines are read and right before the generation command. -/
theorem rpath_command_once_every_platform (env : Env) (b : Build) :
    (main env b).2.count (.system rpath_command) = (if acquired env b then 1 else 0)
    ∧ (acquired env b = true → ∃ pre post, (main env b).2 = pre ++
        [.cout "Enter your prompt: ", .getline (getline env.stdin).1,
          .cout "Enter output filename (with .png extension): ",
          .getline (getline (getline env.stdin).2).1,
          .system rpath_command,
          .cout ("Running Stable Diffusion with command: " ++ generation_text env ++ "\n"),
          .system (generation_command env)] ++ post) := by
  constructor
  · rw [← count_commands (Event.system rpath_command) _ rfl]
    by_cases ha : acquired env b = true
    · rw [if_pos ha, commands_main, if_pos ha, List.count_append]
      have hA : List.count (Event.system rpath_command)
          (if env.current_path.isSome = true then
            (if env.fs_exists model_path = some false
                ∧ (env.fs_create_directories "./models").isSome = true
              then [Event.system model_download_command] else [])
            ++ (if model_acquired env = true ∧ env.fs_exists "./supplementary/sd" = some false
                then commands (download_stable_diffusion env b).2 else [])
           else []) = 0 := by
        rw [List.count_eq_zero]
        intro hin
        split_ifs at hin <;>
          simp only [List.mem_append, List.mem_singleton, List.not_mem_nil, or_false,
            false_or] at hin
        · rcases hin with hin | hin
          · exact model_ne_rpath (Event.system.inj hin).symm
          · exact rpath_not_mem_download env b hin
        · exact model_ne_rpath (Event.system.inj hin).symm
        · exact rpath_not_mem_download env b hin
      rw [hA]
      have := (generation_ne_rpath env).symm
      simp [List.count_cons, this]
    · rw [if_neg ha, List.count_eq_zero]
      intro hin
      rcases commands_main_mem env b _ hin with h2 | h2 | h2
      · exact model_ne_rpath (Event.system.inj h2.1).symm
      · exact rpath_not_mem_download env b h2.1
      · exact ha h2.1
  · intro ha
    have hcp : env.current_path.isSome = true ∧ model_acquired env = true
        ∧ executable_acquired env b = true := by
      unfold acquired at ha
      simpa [Bool.and_eq_true, and_assoc] using ha
    obtain ⟨path, hpath⟩ := Option.isSome_iff_exists.mp hcp.1
    rw [main_snd, hpath, hcp.2.1, hcp.2.2]
    simp only [if_true, Bool.and_self]
    refine ⟨[.cout "Working path is: ", .fs_current_path] ++ ([.cout (quoted path ++ "\n")]
        ++ (main_model_step env).2 ++ (main_executable_step env b).2), ?_⟩
    unfold main_generation_step generation_command generation_text
    dsimp only
    rw [c_str_rpath]
    split_ifs
    · exact ⟨[.cerr "Stable Diffusion execution failed.\n"], by simp only [List.append_assoc]⟩
    · exact ⟨[], by simp only [List.append_nil, List.append_assoc]⟩

/-- Witness of claim C8: a Linux build on a machine with both artifacts. -/
theorem rpath_command_once_every_platform_witness :
    acquired installed_world linux_program = true
    ∧ (main installed_world linux_program).2.count (.system rpath_command) = 1 :=
  ⟨by decide,
    (rpath_command_once_every_platform installed_world linux_program).1.trans (by decide)⟩

/-- Counterexample to claim C9: the prompt read from standard input holds a NUL.
Line 158 passes `sd_command.c_str()` to `system`, so the shell receives the
text up to that NUL only; the concatenation of the claim is not the command
passed to the shell. -/
theorem generation_command_nul_counterexample :
    (getline nul_world.stdin).1 = "a\x00b"
    ∧ (getline (getline nul_world.stdin).2).1 = "out.png"
    ∧ acquired nul_world apple_program = true
    ∧ commands (main nul_world apple_program).2 =
        [.system "install_name_tool -add_rpath @loader_path ./supplementary/sd",
          .system "./supplementary/sd -m ./models/v1-5-pruned-emaonly.safetensors -p \"a"]
    ∧ Event.system ("./supplementary/sd -m ./models/v1-5-pruned-emaonly.safetensors -p \""
        ++ "a\x00b" ++ "\" -o " ++ "out.png") ∉ (main nul_world apple_program).2 := by
  decide

/-- Claim C9, amended: for the prompt `p` and the output filename `f` read from
standard input, the string built at line 156 is the fixed text up to `-p "`,
then `p`, then `" -o `, then `f`: `p` occurs in it as a contiguous block, `f`
ends it, its length is 72 plus the lengths of `p` and `f`, and it is printed
whole.  The command passed to `system`, after the patch command, is that
string up to its first NUL; it is the whole string when `p` and `f` hold no
NUL. -/
theorem generation_command_verbatim (env : Env) (b : Build) (p f : String)
    (hp : (getline env.stdin).1 = p) (hf : (getline (getline env.stdin).2).1 = f)
    (ha : acquired env b = true) :
    generation_text env
      = "./supplementary/sd -m ./models/v1-5-pruned-emaonly.safetensors -p \"" ++ p ++ "\" -o " ++ f
    ∧ p.data <:+: (generation_text env).data
    ∧ f.data <:+ (generation_text env).data
    ∧ (generation_text env).length = 72 + p.length + f.length
    ∧ Event.cout ("Running Stable Diffusion with command: "
        ++ ("./supplementary/sd -m ./models/v1-5-pruned-emaonly.safetensors -p \"" ++ p
              ++ "\" -o " ++ f) ++ "\n") ∈ (main env b).2
    ∧ commands (main_generation_step env).2 = [.system rpath_command,
        .system (c_str ("./supplementary/sd -m ./models/v1-5-pruned-emaonly.safetensors -p \""
          ++ p ++ "\" -o " ++ f))]
    ∧ Event.system (c_str ("./supplementary/sd -m ./models/v1-5-pruned-emaonly.safetensors -p \""
          ++ p ++ "\" -o " ++ f)) ∈ (main env b).2
    ∧ ((∀ c ∈ p.data, c ≠ '\x00') → (∀ c ∈ f.data, c ≠ '\x00') →
        c_str ("./supplementary/sd -m ./models/v1-5-pruned-emaonly.safetensors -p \""
          ++ p ++ "\" -o " ++ f)
        = "./supplementary/sd -m ./models/v1-5-pruned-emaonly.safetensors -p \""
          ++ p ++ "\" -o " ++ f) := by
  have hg : generation_text env
      = "./supplementary/sd -m ./models/v1-5-pruned-emaonly.safetensors -p \"" ++ p ++ "\" -o " ++ f := by
    unfold generation_text sd_command
    rw [hp, hf]
    apply String.ext
    simp [model_path]
  have hd : (generation_text env).data
      = "./supplementary/sd -m ./models/v1-5-pruned-emaonly.safetensors -p \"".data
          ++ (p.data ++ ("\" -o ".data ++ f.data)) := by
    rw [hg]
    simp [String.data_append]
  have hgc : generation_command env
      = c_str ("./supplementary/sd -m ./models/v1-5-pruned-emaonly.safetensors -p \""
          ++ p ++ "\" -o " ++ f) := by
    unfold generation_command
    rw [hg]
  have hcp : env.current_path.isSome = true ∧ model_acquired env = true
      ∧ executable_acquired env b = true := by
    unfold acquired at ha
    simpa [Bool.and_eq_true, and_assoc] using ha
  refine ⟨hg, ?_, ?_, ?_, ?_, ?_, ?_, ?_⟩
  · rw [hd]
    exact ⟨"./supplementary/sd -m ./models/v1-5-pruned-emaonly.safetensors -p \"".data,
      "\" -o ".data ++ f.data, by simp only [List.append_assoc]⟩
  · rw [hd]
    exact ⟨"./supplementary/sd -m ./models/v1-5-pruned-emaonly.safetensors -p \"".data
      ++ (p.data ++ "\" -o ".data), by simp only [List.append_assoc]⟩
  · rw [hg]
    simp [String.length_append]
    have : "./supplementary/sd -m ./models/v1-5-pruned-emaonly.safetensors -p \"".length = 67 := by
      decide
    have h5 : "\" -o ".length = 5 := by decide
    omega
  · obtain ⟨path, hpath⟩ := Option.isSome_iff_exists.mp hcp.1
    rw [main_snd, hpath, hcp.2.1, hcp.2.2, ← hg]
    simp only [if_true, Bool.and_self]
    apply List.mem_append_right
    apply List.mem_append_right
    unfold main_generation_step generation_text
    dsimp only
    split_ifs <;> simp
  · rw [commands_main_generation_step, hgc]
  · rw [system_mem_iff, commands_main, ha, ← hgc]
    simp
  · intro hpn hfn
    apply c_str_of_no_nul
    intro c hc
    simp only [String.data_append, List.mem_append] at hc
    rcases hc with ((hc | hc) | hc) | hc
    · intro h0
      rw [h0] at hc
      revert hc
      decide
    · exact hpn c hc
    · intro h0
      rw [h0] at hc
      revert hc
      decide
    · exact hfn c hc

/-- Witness of claim C9: a prompt with shell metacharacters and a filename with
a path traversal reach the shell unchanged. -/
theorem generation_command_verbatim_witness :
    Event.system ("./supplementary/sd -m ./models/v1-5-pruned-emaonly.safetensors -p \""
        ++ "a\"; rm -rf ~; \"" ++ "\" -o " ++ "../../out.png")
      ∈ (main { installed_world with stdin := "a\"; rm -rf ~; \"\n../../out.png\n" }
          apple_program).2 := by
  have h := generation_command_verbatim
    { installed_world with stdin := "a\"; rm -rf ~; \"\n../../out.png\n" }
    apple_program "a\"; rm -rf ~; \"" "../../out.png" (by decide) (by decide) (by decide)
  have h7 := h.2.2.2.2.2.2.1
  rw [h.2.2.2.2.2.2.2 (by decide) (by decide)] at h7
  exact h7

set_option maxRecDepth 100000 in
/-- Claim C10: each of the three expected checksums is `sha256:` followed by
64 lowercase hexadecimal digits, so `substr(7)` succeeds and yields those
digits, and `verify_download` returns true exactly when the pipe opens and
the computed hash without its trailing whitespace is that string of digits.
Every selected platform is one of the three; the checksums are pairwise
distinct and each build selects its own URL together with its own checksum. -/
theorem platform_checksums_well_formed :
    (∀ info ∈ [macOS, linux, windows], ∃ hex : String,
        info.sha256 = "sha256:" ++ hex ∧ hex.length = 64
        ∧ (∀ c ∈ hex.data, is_lower_hex c = true)
        ∧ substr info.sha256 7 = some hex
        ∧ ∀ (env : Env) (f : String), (verify_download env f info.sha256).1 = some
            (match env.popen (c_str ("shasum -a 256 " ++ f ++ " | awk \x27\x7bprint $1\x7d\x27")) with
             | none => false
             | some output => decide (rstrip (read_actual_sha256 env output) = hex)))
    ∧ (∀ m info, current_platform m = some info → info ∈ [macOS, linux, windows])
    ∧ macOS.sha256 ≠ linux.sha256 ∧ macOS.sha256 ≠ windows.sha256 ∧ linux.sha256 ≠ windows.sha256
    ∧ current_platform apple_build = some
        { url := "https://github.com/leejet/stable-diffusion.cpp/releases/download/master-343-dd75fc0/sd-master--bin-Darwin-macOS-15.7.1-arm64.zip"
          sha256 := "sha256:49bb1c0273efb6a36a26926ece674daffe49cd4a51c9e8935b5c9e8eb68b7ea2" }
    ∧ current_platform linux_build = some
        { url := "https://github.com/leejet/stable-diffusion.cpp/releases/download/master-343-dd75fc0/sd-master--bin-Linux-Ubuntu-24.04-x86_64.zip"
          sha256 := "sha256:152df5843e2ea265a627024de37a985cf75b5554554e2ad5d0ff06aad76ba4d8" }
    ∧ current_platform windows_build = some
        { url := "https://github.com/leejet/stable-diffusion.cpp/releases/download/master-343-dd75fc0/sd-master-dd75fc0-bin-win-avx-x64.zip"
          sha256 := "sha256:17f6d4f4e1cdaf92f90ff09479e0460246193d015f2b29f8f7553affed426c78" } := by
  have key : ∀ (e hex : String), e = "sha256:" ++ hex → hex.length = 64 →
      substr e 7 = some hex ∧
      ∀ (env : Env) (f : String), (verify_download env f e).1 = some
            (match env.popen (c_str ("shasum -a 256 " ++ f ++ " | awk \x27\x7bprint $1\x7d\x27")) with
             | none => false
             | some output => decide (rstrip (read_actual_sha256 env output) = hex)) := by
    intro e hex he hl
    have h7 : 7 ≤ e.length := by
      rw [he, String.length_append]
      have : "sha256:".length = 7 := by decide
      omega
    have hy : (⟨e.data.drop 7⟩ : String) = hex := by
      rw [he]
      apply String.ext
      simp [String.data_append]
    refine ⟨by simp [substr, h7, hy], ?_⟩
    intro env f
    cases hp : env.popen (c_str ("shasum -a 256 " ++ f ++ " | awk \x27\x7bprint $1\x7d\x27")) with
    | none => rw [verify_download_fst, hp]
    | some out => rw [verify_download_eq env f e out h7 hp, hy]
  refine ⟨?_, ?_, by decide, by decide, by decide, by decide, by decide, by decide⟩
  · intro info hinfo
    simp only [List.mem_cons, List.mem_singleton, List.not_mem_nil, or_false] at hinfo
    rcases hinfo with h | h | h <;> subst h
    · refine ⟨"49bb1c0273efb6a36a26926ece674daffe49cd4a51c9e8935b5c9e8eb68b7ea2", by decide,
        by decide, by decide, ?_⟩
      exact key _ _ (by decide) (by decide)
    · refine ⟨"152df5843e2ea265a627024de37a985cf75b5554554e2ad5d0ff06aad76ba4d8", by decide,
        by decide, by decide, ?_⟩
      exact key _ _ (by decide) (by decide)
    · refine ⟨"17f6d4f4e1cdaf92f90ff09479e0460246193d015f2b29f8f7553affed426c78", by decide,
        by decide, by decide, ?_⟩
      exact key _ _ (by decide) (by decide)
  · intro m info h
    have := current_platform_mem m info h
    simp only [List.mem_cons, List.mem_singleton, List.not_mem_nil, or_false]
    exact this

/-- Witness of claim C10: the Linux checksum printed by the hashing command is
accepted for the Linux entry. -/
theorem platform_checksums_well_formed_witness :
    (verify_download
      (fresh_world "152df5843e2ea265a627024de37a985cf75b5554554e2ad5d0ff06aad76ba4d8\n")
      "./supplementary/stable_diffusion.zip" linux.sha256).1 = some true :=
  have h := platform_checksums_well_formed.1 linux (by decide)
  by
    obtain ⟨hex, h1, -, -, -, h5⟩ := h
    have hhex : hex = "152df5843e2ea265a627024de37a985cf75b5554554e2ad5d0ff06aad76ba4d8" := by
      have := congrArg (fun s : String => (⟨s.data.drop 7⟩ : String)) h1
      simp only [String.data_append] at this
      have e1 : (⟨linux.sha256.data.drop 7⟩ : String)
          = "152df5843e2ea265a627024de37a985cf75b5554554e2ad5d0ff06aad76ba4d8" := by decide
      rw [e1] at this
      rw [this]
      apply String.ext
      simp
    subst hhex
    rw [h5]
    decide

end CliFrontend
